import Mathlib

/-!
Verification of the NebulaRaceServer specification against the source.

Numbers of the JavaScript source are modelled as rationals; where a code
path can produce a non-finite value (NaN or an infinity), the affected
computation is carried out in `Option ℚ`, with `none` standing for a
non-finite value. Functions of the JavaScript standard library whose exact
value is irrelevant to a property (Math.sqrt on positive arguments,
Math.pow) are abstracted as function parameters, so the theorems hold for
every implementation of them.
-/

namespace NebulaRace

-- ===============================================================
-- Geometry: shared 3-component vector over ℚ
-- ===============================================================

/-- Three-component vector with rational coordinates.  Used both for the
plain-object vectors of server/fbm.js and for the Vector3 instances of the
physics worker. -/
@[ext]
structure Vec3 where
  x : ℚ
  y : ℚ
  z : ℚ
  deriving DecidableEq

/-- Translated from server/math.js Vector3.dot (the math.js source is
embedded in src/README.md after the document separator):
this.x * v.x + this.y * v.y + this.z * v.z. -/
def dotV (a b : Vec3) : ℚ := a.x * b.x + a.y * b.y + a.z * b.z

/-- Translated from server/math.js Vector3.add, value-style for the
in-place componentwise addition. -/
def addV (a b : Vec3) : Vec3 := ⟨a.x + b.x, a.y + b.y, a.z + b.z⟩

/-- Translated from server/math.js Vector3.sub, value-style for the
in-place componentwise subtraction. -/
def subV (a b : Vec3) : Vec3 := ⟨a.x - b.x, a.y - b.y, a.z - b.z⟩

/-- Translated from server/math.js Vector3.multiplyScalar, value-style
for the in-place componentwise scaling. -/
def scaleV (a : Vec3) (s : ℚ) : Vec3 := ⟨a.x * s, a.y * s, a.z * s⟩

-- ===============================================================
-- Terrain field: server/fbm.js
-- ===============================================================

/-- Translated from server/fbm.js, ridge: n = abs(n); n = 1 - n; n * n. -/
def ridge (n : ℚ) : ℚ := (1 - |n|) * (1 - |n|)

/-- Loop of fbmStandard (server/fbm.js): state (frequency, amplitude),
accumulating noiseFn(p * f) * amp, then f = f * lacunarity and
amp = amp * persistence, one step per octave. -/
def fbmLoop (noiseFn : Vec3 → ℚ) (p : Vec3) (lac pers : ℚ) : ℕ → ℚ → ℚ → ℚ
  | 0, _, _ => 0
  | n + 1, f, amp => noiseFn (scaleV p f) * amp + fbmLoop noiseFn p lac pers n (f * lac) (amp * pers)

/-- Translated from server/fbm.js, fbmStandard: sum = 0, amp = 0.5,
f = freq, then the octave loop. -/
def fbmStandard (p : Vec3) (freq lac pers : ℚ) (octaves : ℕ) (noiseFn : Vec3 → ℚ) : ℚ :=
  fbmLoop noiseFn p lac pers octaves freq (1 / 2)

/-- The sequence of points fbmStandard passes to noiseFn, in call order,
mirroring the loop of server/fbm.js: the point scaled by the current
frequency of each octave. -/
def fbmCallsLoop (p : Vec3) (lac : ℚ) : ℕ → ℚ → List Vec3
  | 0, _ => []
  | n + 1, f => scaleV p f :: fbmCallsLoop p lac n (f * lac)

/-- Points sampled by fbmStandard across octaves (see fbmCallsLoop). -/
def fbmCalls (p : Vec3) (freq lac : ℚ) (octaves : ℕ) : List Vec3 :=
  fbmCallsLoop p lac octaves freq

/-- Loop of ridgedFBM (server/fbm.js): as fbmLoop but each noise sample
passes through ridge before weighting. -/
def ridgedLoop (noiseFn : Vec3 → ℚ) (p : Vec3) (lac pers : ℚ) : ℕ → ℚ → ℚ → ℚ
  | 0, _, _ => 0
  | n + 1, f, amp =>
      ridge (noiseFn (scaleV p f)) * amp + ridgedLoop noiseFn p lac pers n (f * lac) (amp * pers)

/-- Translated from server/fbm.js, ridgedFBM. -/
def ridgedFBM (p : Vec3) (freq lac pers : ℚ) (octaves : ℕ) (noiseFn : Vec3 → ℚ) : ℚ :=
  ridgedLoop noiseFn p lac pers octaves freq (1 / 2)

/-- Terrain parameter set of server/fbm.js.  uOctaves is a natural number
(the source iterates a for loop octave by octave); uExponentiation stays a
rational and is consumed by the abstracted Math.pow. -/
structure FBMParams where
  uFrequency : ℚ
  uLacunarity : ℚ
  uPersistence : ℚ
  uOctaves : ℕ
  uExponentiation : ℚ

/-- Translated from server/fbm.js, terrainElevationRidged.  powFn stands
for Math.pow, whose numeric behaviour the claims do not depend on. -/
def terrainElevationRidged (pos : Vec3) (params : FBMParams) (noiseFn : Vec3 → ℚ)
    (powFn : ℚ → ℚ → ℚ) : ℚ :=
  let base := ridgedFBM pos params.uFrequency params.uLacunarity params.uPersistence
    params.uOctaves noiseFn
  let warp0 := noiseFn ⟨pos.x * (1 / 2), pos.y * (1 / 2), pos.z * (1 / 2)⟩
  let warp1 := noiseFn ⟨pos.x * (1 / 2) + 100, pos.y * (1 / 2), pos.z * (1 / 2)⟩
  let warp2 := noiseFn ⟨pos.x * (1 / 2), pos.y * (1 / 2) + 200, pos.z * (1 / 2)⟩
  let warpedPos : Vec3 :=
    ⟨pos.x + warp0 * (3 / 10), pos.y + warp1 * (3 / 10), pos.z + warp2 * (3 / 10)⟩
  let detail := ridgedFBM warpedPos (params.uFrequency * (5 / 2)) params.uLacunarity
    params.uPersistence (max 3 (params.uOctaves / 2)) noiseFn
  powFn (base + detail * (3 / 10)) params.uExponentiation

-- ===============================================================
-- Physics worker: server/workers/PhysicsWorker.js
-- ===============================================================

/-- Translated from the worker: const clamp = (v, min, max) =>
Math.max(min, Math.min(max, v)). -/
def clampQ (v lo hi : ℚ) : ℚ := max lo (min hi v)

/-- FIXED_STEP = 1 / 60. -/
def fixedStep : ℚ := 1 / 60

/-- playerRadius = 0.5. -/
def playerRadius : ℚ := 1 / 2

/-- Corner sign of the OBB sampling loop: sx = (i AND 1) ? 1 : -1 and the
analogous bits 1 and 2 for sy, sz. -/
def cornerSign (i k : ℕ) : ℚ := if i.testBit k then 1 else -1

/-- One OBB corner: the signed half-extent offset rotated by the craft
orientation and added to the center, as in obbSignedDistanceWithNormal.
The rotation (Vector3.applyQuaternion with the craft quaternion) is
abstracted as an arbitrary function on vectors: the penetration property
below holds for every orientation, so the theorem quantifies over it. -/
def cornerPoint (rot : Vec3 → Vec3) (center halfExtents : Vec3) (i : ℕ) : Vec3 :=
  addV (rot ⟨cornerSign i 0 * halfExtents.x, cornerSign i 1 * halfExtents.y,
    cornerSign i 2 * halfExtents.z⟩) center

/-- Minimum signed distance over the 8 OBB corners, as tracked by the
minDist fold of obbSignedDistanceWithNormal (seeded with Infinity in the
source; folding min over all eight samples is the same value). -/
def obbMinDistance (sdf : Vec3 → ℚ) (rot : Vec3 → Vec3) (center halfExtents : Vec3) : ℚ :=
  ((List.range 8).map (fun i => sdf (cornerPoint rot center halfExtents i))).foldl min
    (sdf (cornerPoint rot center halfExtents 0))

/-- Translated from updatePlayerPhysics (collision branch): when
distance < playerRadius, push the position out along the contact normal by
the penetration, recombine the velocity from its tangential part scaled by
slideFactor and its normal part scaled by -restitution, and scale the
angular velocity by 0.1; otherwise leave all three unchanged.  Returns
(position, velocity, angularVelocity). -/
def resolveCollision (restitution slideFactor : ℚ) (pos velocity angularVelocity : Vec3)
    (distance : ℚ) (normal : Vec3) : Vec3 × Vec3 × Vec3 :=
  if distance < playerRadius then
    let penetration := playerRadius - distance
    let pos2 : Vec3 := ⟨pos.x + normal.x * penetration, pos.y + normal.y * penetration,
      pos.z + normal.z * penetration⟩
    let vDotN := velocity.x * normal.x + velocity.y * normal.y + velocity.z * normal.z
    let nPart : Vec3 := ⟨normal.x * vDotN, normal.y * vDotN, normal.z * vDotN⟩
    let tPart : Vec3 := ⟨velocity.x - nPart.x, velocity.y - nPart.y, velocity.z - nPart.z⟩
    let nScaled := scaleV nPart (-restitution)
    let tScaled := scaleV tPart slideFactor
    (pos2, ⟨tScaled.x + nScaled.x, tScaled.y + nScaled.y, tScaled.z + nScaled.z⟩,
      scaleV angularVelocity (1 / 10))
  else (pos, velocity, angularVelocity)

/-- Translated from updatePlayerPhysics (speed update): maxSpeed =
Math.max(0.0001, currentPlayerSpeed OR 1) (the JS OR maps a zero speed to
1), maxBrakeSpeed = -maxSpeed * 0.5, ABS_SPEED_LIMIT = maxSpeed * 4; the
signed scalar speed is accelerated toward maxSpeed when throttle > 0,
toward maxBrakeSpeed when throttle < 0, multiplied by 0.99 (to the fixed
power 1, not scaled by the time step) when throttle is zero, and clamped
to the absolute limit. -/
def maxSpeedOf (currentPlayerSpeed : ℚ) : ℚ :=
  max (1 / 10000) (if currentPlayerSpeed = 0 then 1 else currentPlayerSpeed)

/-- Speed scalar update of updatePlayerPhysics, built on maxSpeedOf;
see the comment above maxSpeedOf for the source mapping. -/
def updateSpeed (speed throttle accel currentPlayerSpeed : ℚ) : ℚ :=
  let maxSpeed := maxSpeedOf currentPlayerSpeed
  let maxBrakeSpeed := -maxSpeed * (1 / 2)
  let absSpeedLimit := maxSpeed * 4
  let s :=
    if 0 < throttle then min (speed + accel * throttle * fixedStep) maxSpeed
    else if throttle < 0 then max (speed + accel * throttle * fixedStep) maxBrakeSpeed
    else speed * (99 / 100)
  clampQ s (-absSpeedLimit) absSpeedLimit

-- ===============================================================
-- Start-pose computation: src/utils.js getStartPoseFromCurve and
-- lookRotation, over an arithmetic that tracks non-finite values
-- ===============================================================

/-- Negation over the non-finite-tracking carrier (none models a NaN or
infinity of the JavaScript computation; NaN propagates through every
arithmetic operator). -/
def rneg : Option ℚ → Option ℚ
  | some a => some (-a)
  | none => none

/-- Addition; none (non-finite) absorbs. -/
def radd : Option ℚ → Option ℚ → Option ℚ
  | some a, some b => some (a + b)
  | _, _ => none

/-- Subtraction; none absorbs. -/
def rsub : Option ℚ → Option ℚ → Option ℚ
  | some a, some b => some (a - b)
  | _, _ => none

/-- Multiplication; none absorbs. -/
def rmul : Option ℚ → Option ℚ → Option ℚ
  | some a, some b => some (a * b)
  | _, _ => none

/-- Division; a zero divisor yields a non-finite result (0/0 is NaN, x/0
an infinity), and none absorbs. -/
def rdiv : Option ℚ → Option ℚ → Option ℚ
  | some a, some b => if b = 0 then none else some (a / b)
  | _, _ => none

/-- Math.sqrt, abstracted: NaN on negative input, exactly 0 at 0, and an
arbitrary implementation value sqrtFn a on positive input. -/
def rsqrt (sqrtFn : ℚ → ℚ) : Option ℚ → Option ℚ
  | some a => if a < 0 then none else if a = 0 then some 0 else some (sqrtFn a)
  | none => none

/-- Math.hypot(a, b, c) = sqrt(a*a + b*b + c*c). -/
def rhypot (sqrtFn : ℚ → ℚ) (a b c : Option ℚ) : Option ℚ :=
  rsqrt sqrtFn (radd (radd (rmul a a) (rmul b b)) (rmul c c))

/-- The JavaScript greater-than: false whenever an operand is NaN. -/
def rgt : Option ℚ → Option ℚ → Bool
  | some a, some b => decide (b < a)
  | _, _ => false

/-- Vector of possibly non-finite components. -/
structure RVec where
  x : Option ℚ
  y : Option ℚ
  z : Option ℚ
  deriving DecidableEq

/-- Quaternion of possibly non-finite components, in (x, y, z, w) order as
returned by lookRotation. -/
structure RQuat where
  x : Option ℚ
  y : Option ℚ
  z : Option ℚ
  w : Option ℚ
  deriving DecidableEq

/-- Cross product, the componentwise formulas of lookRotation. -/
def crossR (a b : RVec) : RVec :=
  ⟨rsub (rmul a.y b.z) (rmul a.z b.y), rsub (rmul a.z b.x) (rmul a.x b.z),
   rsub (rmul a.x b.y) (rmul a.y b.x)⟩

/-- Translated from src/utils.js lookRotation: negate the forward vector,
build an orthonormal frame by cross products and hypot-normalization, and
convert the rotation matrix to a quaternion through the four-branch
trace test. -/
def lookRotation (sqrtFn : ℚ → ℚ) (forwardV up : RVec) : RQuat :=
  let z : RVec := ⟨rneg forwardV.x, rneg forwardV.y, rneg forwardV.z⟩
  let xr := crossR up z
  let lx := rhypot sqrtFn xr.x xr.y xr.z
  let xn : RVec := ⟨rdiv xr.x lx, rdiv xr.y lx, rdiv xr.z lx⟩
  let yv := crossR z xn
  let m00 := xn.x
  let m01 := yv.x
  let m02 := z.x
  let m10 := xn.y
  let m11 := yv.y
  let m12 := z.y
  let m20 := xn.z
  let m21 := yv.z
  let m22 := z.z
  let tr := radd (radd m00 m11) m22
  if rgt tr (some 0) then
    let s := rmul (rsqrt sqrtFn (radd tr (some 1))) (some 2)
    ⟨rdiv (rsub m21 m12) s, rdiv (rsub m02 m20) s, rdiv (rsub m10 m01) s, rmul (some (1 / 4)) s⟩
  else if rgt m00 m11 && rgt m00 m22 then
    let s := rmul (rsqrt sqrtFn (rsub (rsub (radd (some 1) m00) m11) m22)) (some 2)
    ⟨rmul (some (1 / 4)) s, rdiv (radd m01 m10) s, rdiv (radd m02 m20) s, rdiv (rsub m21 m12) s⟩
  else if rgt m11 m22 then
    let s := rmul (rsqrt sqrtFn (rsub (rsub (radd (some 1) m11) m00) m22)) (some 2)
    ⟨rdiv (radd m01 m10) s, rmul (some (1 / 4)) s, rdiv (radd m12 m21) s, rdiv (rsub m02 m20) s⟩
  else
    let s := rmul (rsqrt sqrtFn (rsub (rsub (radd (some 1) m22) m00) m11)) (some 2)
    ⟨rdiv (radd m02 m20) s, rdiv (radd m12 m21) s, rmul (some (1 / 4)) s, rdiv (rsub m10 m01) s⟩

/-- The pair (i0, i1) of segment endpoint indices selected by
getStartPoseFromCurve for a given distance. -/
def selectedSegment (points : List Vec3) (distance : ℚ) : ℤ × ℤ :=
  let n : ℤ := points.length
  let t := min (max distance 0) 1
  let index : ℚ := t * ((n : ℚ) - 1)
  let i0 : ℤ := ⌊index⌋
  (i0, min (i0 + 1) (n - 1))

/-- Translated from src/utils.js getStartPoseFromCurve: clamp the distance
fraction, pick the segment, interpolate the position (pure rational:
no non-finite value can arise there), normalize the segment tangent with a
possibly zero hypot, and derive the orientation via lookRotation with up
(0, 1, 0).  Out-of-range list access uses a zero default; every property
proved below only exercises in-range indices, matching the source. -/
def getStartPoseFromCurve (sqrtFn : ℚ → ℚ) (points : List Vec3) (distance : ℚ) : Vec3 × RQuat :=
  let n : ℤ := points.length
  let t := min (max distance 0) 1
  let index : ℚ := t * ((n : ℚ) - 1)
  let i0 : ℤ := ⌊index⌋
  let i1 : ℤ := min (i0 + 1) (n - 1)
  let alph : ℚ := index - (i0 : ℚ)
  let p0 := points.getD i0.toNat ⟨0, 0, 0⟩
  let p1 := points.getD i1.toNat ⟨0, 0, 0⟩
  let position : Vec3 := ⟨p0.x + (p1.x - p0.x) * alph, p0.y + (p1.y - p0.y) * alph,
    p0.z + (p1.z - p0.z) * alph⟩
  let len := rhypot sqrtFn (some (p1.x - p0.x)) (some (p1.y - p0.y)) (some (p1.z - p0.z))
  let tang : RVec := ⟨rdiv (some (p1.x - p0.x)) len, rdiv (some (p1.y - p0.y)) len,
    rdiv (some (p1.z - p0.z)) len⟩
  (position, lookRotation sqrtFn tang ⟨some 0, some 1, some 0⟩)

/-- The distance fractions i / max(1, n - 1) at which the worker init
precomputes start poses along the curve (PhysicsWorker init and
addPlayer). -/
def startPoseDistances (numPositions : ℕ) : List ℚ :=
  (List.range numPositions).map (fun (i : ℕ) => (i : ℚ) / ((max 1 (numPositions - 1) : ℕ) : ℚ))

-- ===============================================================
-- Association-map helpers for the module-level JS objects and Maps
-- (state.rooms, room.players), keyed here by natural-number ids
-- ===============================================================

/-- Lookup in an association list, mirroring JS property access. -/
def lookupNat {α : Type} (k : ℕ) : List (ℕ × α) → Option α
  | [] => none
  | (k2, v) :: rest => if k = k2 then some v else lookupNat k rest

/-- In-place update of one key, mirroring JS property mutation. -/
def setNat {α : Type} (k : ℕ) (f : α → α) : List (ℕ × α) → List (ℕ × α)
  | [] => []
  | (k2, v) :: rest =>
      if k = k2 then (k2, f v) :: setNat k f rest else (k2, v) :: setNat k f rest

/-- Deletion of a key, mirroring the JS delete operator. -/
def removeNat {α : Type} (k : ℕ) : List (ℕ × α) → List (ℕ × α)
  | [] => []
  | (k2, v) :: rest => if k = k2 then removeNat k rest else (k2, v) :: removeNat k rest

-- ===============================================================
-- Room phase machine: server/server.js
-- ===============================================================

/-- Room phases of server/server.js. -/
inductive Phase
  | lobby
  | pregame
  | racecountdown
  | racing
  | finished
  deriving DecidableEq

/-- Roster entry fields touched by the phase machine (name, socket and
out-of-bounds accumulator carry no lifecycle information and are
omitted). -/
structure PEntry where
  ready : Bool
  joinedAt : ℕ
  finishedAt : Option ℕ
  startPos : Option ℕ
  score : ℕ
  deriving DecidableEq

/-- A room as owned by the Orchestrator: roster, phase, the two countdown
closures (modelled by their remaining seconds) and the race start
timestamp. -/
structure RoomP where
  players : List (ℕ × PEntry)
  phase : Phase
  pregameT : Option ℕ
  raceT : Option ℕ
  raceStartAt : Option ℕ
  deriving DecidableEq

/-- Translated from the setReady branch of the message handler: missing
player silently ignored, otherwise the ready flag is set; nothing else
changes (the all-ready pregame trigger present in the older single-room
server is commented out in server/server.js). -/
def setReadyRoom (room : RoomP) (pid : ℕ) (v : Bool) : RoomP :=
  match lookupNat pid room.players with
  | none => room
  | some _ => { room with players := setNat pid (fun e => { e with ready := v }) room.players }

/-- Stable insertion used to model Array.prototype.sort on joinedAt
(stable for modern engines; insertion keeps the original order of equal
keys). -/
def insertByJoin (x : ℕ × PEntry) : List (ℕ × PEntry) → List (ℕ × PEntry)
  | [] => [x]
  | y :: rest =>
      if y.2.joinedAt ≤ x.2.joinedAt then y :: insertByJoin x rest else x :: y :: rest

/-- Sort of the roster by join time (see insertByJoin). -/
def sortByJoin (l : List (ℕ × PEntry)) : List (ℕ × PEntry) :=
  l.foldl (fun acc x => insertByJoin x acc) []

/-- Translated from assignStartPositions: sort by joinedAt, ordinal
positions 1..n. -/
def assignStartPositionsRoom (room : RoomP) : RoomP :=
  let ps := (sortByJoin room.players).enum.map
    (fun ie => (ie.2.1, { ie.2.2 with startPos := some (ie.1 + 1) }))
  { room with players := ps }

/-- Translated from startPregameCountdown: guarded on the lobby phase,
sets phase pregame and arms countdown A. -/
def startPregameRoom (room : RoomP) (secs : ℕ) : RoomP :=
  if room.phase = Phase.lobby then { room with phase := Phase.pregame, pregameT := some secs }
  else room

/-- Translated from startRaceCountdown: no phase guard, sets phase
racecountdown and arms countdown B. -/
def startRaceCountdownRoom (room : RoomP) (secs : ℕ) : RoomP :=
  { room with phase := Phase.racecountdown, raceT := some secs }

/-- Translated from startRace: phase racing, record the start timestamp. -/
def startRaceRoom (room : RoomP) (now : ℕ) : RoomP :=
  { room with phase := Phase.racing, raceStartAt := some now }

/-- Translated from endRace: phase finished. -/
def endRaceRoom (room : RoomP) : RoomP := { room with phase := Phase.finished }

/-- One firing of the pregame interval closure: decrement, and at zero
clear the timer, assign start positions and start the race countdown with
5 seconds. -/
def pregameTickRoom (room : RoomP) : RoomP :=
  match room.pregameT with
  | none => room
  | some t =>
      let t2 := t - 1
      if t2 = 0 then
        startRaceCountdownRoom (assignStartPositionsRoom { room with pregameT := none }) 5
      else { room with pregameT := some t2 }

/-- One firing of the race-countdown interval closure: decrement, and at
zero clear the timer and start the race. -/
def raceTickRoom (room : RoomP) (now : ℕ) : RoomP :=
  match room.raceT with
  | none => room
  | some t =>
      let t2 := t - 1
      if t2 = 0 then startRaceRoom { room with raceT := none } now
      else { room with raceT := some t2 }

/-- Translated from the finish branch: missing player silently ignored;
otherwise record the finish time, bump the score, and end the race when
every rostered player has a finish time. -/
def finishRoom (room : RoomP) (pid : ℕ) (now : ℕ) : RoomP :=
  match lookupNat pid room.players with
  | none => room
  | some _ =>
      let ps2 := setNat pid (fun e => { e with finishedAt := some now, score := e.score + 1 })
        room.players
      let r2 := { room with players := ps2 }
      if ps2.all (fun qe => qe.2.finishedAt.isSome) then endRaceRoom r2 else r2

/-- Translated from the startNow branch: honored only when the
deployment flag ALLOW_FORCE_START is set, starting the pregame countdown
with 3 seconds. -/
def forceStartRoom (allowForceStart : Bool) (room : RoomP) : RoomP :=
  if allowForceStart then startPregameRoom room 3 else room

/-- Fresh two-player lobby roster entry used by concrete lifecycle
evaluations. -/
def basePlayer : PEntry :=
  { ready := false, joinedAt := 0, finishedAt := none, startPos := none, score := 0 }

/-- A lobby room with two present players, ids 1 and 2. -/
def lobbyRoomTwo : RoomP :=
  { players := [(1, basePlayer), (2, basePlayer)], phase := Phase.lobby, pregameT := none,
    raceT := none, raceStartAt := none }

/-- A pregame room whose countdown A is at its last second. -/
def pregameRoomOne : RoomP :=
  { players := [(1, basePlayer), (2, basePlayer)], phase := Phase.pregame, pregameT := some 1,
    raceT := none, raceStartAt := none }

/-- A race-countdown room whose countdown B is at its last second. -/
def countdownRoomOne : RoomP :=
  { players := [(1, basePlayer), (2, basePlayer)], phase := Phase.racecountdown, pregameT := none,
    raceT := some 1, raceStartAt := none }

/-- A racing room where player 1 has already finished and player 2 has
not. -/
def racingRoomLast : RoomP :=
  { players := [(1, { basePlayer with finishedAt := some 50 }), (2, basePlayer)],
    phase := Phase.racing, pregameT := none, raceT := none, raceStartAt := some 42 }

-- ===============================================================
-- Engine timer lifecycle: start/stop/init and the two intervals of
-- server/workers/PhysicsWorker.js
-- ===============================================================

/-- Worker-global timer state: the running flag and tick interval armed by
start, the fixed-update interval armed by init (startFixedUpdateLoop), and
whether the worker thread is still alive (terminate kills it). -/
structure EngineSt where
  running : Bool
  tickInterval : Bool
  physicsInterval : Bool
  alive : Bool
  deriving DecidableEq

/-- Translated from start(): guarded by the running flag, arms the tick
interval. -/
def wStart (e : EngineSt) : EngineSt :=
  if e.running then e else { e with running := true, tickInterval := true }

/-- Translated from stop(): clears the running flag and the tick
interval; it does not touch physicsInterval. -/
def wStop (e : EngineSt) : EngineSt := { e with running := false, tickInterval := false }

/-- Translated from init()/startFixedUpdateLoop(): (re)arms the
fixed-update interval that drives updatePhysics. -/
def wInit (e : EngineSt) : EngineSt := { e with physicsInterval := true }

/-- worker.terminate() from the orchestrator: the thread and all its
intervals die. -/
def wTerminate (e : EngineSt) : EngineSt :=
  { e with alive := false, running := false, tickInterval := false, physicsInterval := false }

/-- Worker message dispatch restricted to the lifecycle commands. -/
inductive WCmd
  | startCmd
  | stopCmd
  | initCmd
  deriving DecidableEq

/-- parentPort message handler of the worker for lifecycle commands. -/
def wHandle (e : EngineSt) (c : WCmd) : EngineSt :=
  if e.alive then
    match c with
    | WCmd.startCmd => wStart e
    | WCmd.stopCmd => wStop e
    | WCmd.initCmd => wInit e
  else e

/-- A firing of the start()-armed interval posts a tick message exactly
when the interval is armed and the thread is alive. -/
def emitsTickOnTimer (e : EngineSt) : Bool := e.alive && e.tickInterval

/-- A firing of the fixed-update interval posts a stateUpdate snapshot
exactly when that interval is armed and the thread is alive
(updatePhysics always ends in parentPort.postMessage). -/
def emitsSnapshotOnTimer (e : EngineSt) : Bool := e.alive && e.physicsInterval

/-- A worker as created by the orchestrator, before any command. -/
def freshEngine : EngineSt :=
  { running := false, tickInterval := false, physicsInterval := false, alive := true }

-- ===============================================================
-- Pre-ready command buffering: getOrCreateOpenRoom of server/server.js
-- ===============================================================

/-- Messages posted to a physics worker during room creation. -/
inductive WMsg
  | initMsg
  | startMsg
  | addPlayer (pid : ℕ)
  deriving DecidableEq

/-- The orchestrator side of one worker channel: the workerReady flag,
the pendingMessages queue, and the physical post log (each entry records
whether workerReady was set when it was posted). -/
structure Chan where
  workerReady : Bool
  pending : List WMsg
  posted : List (WMsg × Bool)
  deriving DecidableEq

/-- worker.postMessage: a direct post, logged with the current readiness. -/
def postMsg (c : Chan) (m : WMsg) : Chan :=
  { c with posted := c.posted ++ [(m, c.workerReady)] }

/-- Translated from sendToWorker: post when ready, else buffer in
pendingMessages. -/
def sendToWorker (c : Chan) (m : WMsg) : Chan :=
  if c.workerReady then postMsg c m else { c with pending := c.pending ++ [m] }

/-- The synchronous tail of getOrCreateOpenRoom for a new room: when a
joining player is supplied, an addPlayer message is posted directly via
worker.postMessage (not sendToWorker), before any ready signal. -/
def roomCreationSends (c : Chan) (firstPlayer : Option ℕ) : Chan :=
  match firstPlayer with
  | some pid => postMsg c (WMsg.addPlayer pid)
  | none => c

/-- Translated from the worker.once ready callback: set workerReady,
flush pendingMessages in order via worker.postMessage, clear the queue,
then send init, start and (when a joining player is present) a second
addPlayer through sendToWorker. -/
def onWorkerReady (c : Chan) (firstPlayer : Option ℕ) : Chan :=
  let c1 := { c with workerReady := true }
  let c2 := c1.pending.foldl postMsg c1
  let c3 := { c2 with pending := [] }
  let c4 := sendToWorker c3 WMsg.initMsg
  let c5 := sendToWorker c4 WMsg.startMsg
  match firstPlayer with
  | some pid => sendToWorker c5 (WMsg.addPlayer pid)
  | none => c5

/-- A channel before the worker construction finishes. -/
def newChan : Chan := { workerReady := false, pending := [], posted := [] }

-- ===============================================================
-- Room teardown: cleanupRoom and the socket close handler of
-- server/server.js
-- ===============================================================

/-- Observable side effects of the teardown paths. -/
inductive SAct
  | clearPregame
  | clearRace
  | postRemove (pid : ℕ)
  | postStop
  | terminateW
  | deleteR
  deriving DecidableEq

/-- A room as seen by the teardown paths: roster ids, whether each
countdown interval is armed, and whether the physicsWorker handle is
set. -/
structure RoomL where
  players : List ℕ
  pregameTimer : Bool
  raceTimer : Bool
  workerAlive : Bool
  deriving DecidableEq

/-- The module-level state.rooms registry. -/
structure SState where
  rooms : List (ℕ × RoomL)
  deriving DecidableEq

/-- Translated from cleanupRoom(roomId, playerId): missing room is a
no-op; otherwise clear both timers, and when the worker handle is set
post removePlayer and stop, terminate the worker; finally delete the
room. -/
def cleanupRoom (s : SState) (rid pid : ℕ) : SState × List SAct :=
  match lookupNat rid s.rooms with
  | none => (s, [])
  | some room =>
      let workerActs :=
        if room.workerAlive then [SAct.postRemove pid, SAct.postStop, SAct.terminateW] else []
      (⟨removeNat rid s.rooms⟩, [SAct.clearPregame, SAct.clearRace] ++ workerActs ++ [SAct.deleteR])

/-- Translated from the ws close handler: when the socket has a room id,
first the empty-roster branch (timers cleared and room deleted when the
roster is already empty), then cleanupRoom unconditionally. -/
def onSocketClose (s : SState) (wsRoomId : Option ℕ) (pid : ℕ) : SState × List SAct :=
  match wsRoomId with
  | none => (s, [])
  | some rid =>
      let step1 : SState × List SAct :=
        match lookupNat rid s.rooms with
        | some room =>
            if room.players.isEmpty then
              (⟨removeNat rid s.rooms⟩, [SAct.clearPregame, SAct.clearRace, SAct.deleteR])
            else (s, [])
        | none => (s, [])
      let step2 := cleanupRoom step1.1 rid pid
      (step2.1, step1.2 ++ step2.2)

/-- Translated from the removed branch of the message handler: guards on
socket room id, room and player; posts removePlayer to the worker when
the handle is set and deletes the roster entry.  It never tears the room
down, even when the roster becomes empty. -/
def handleRemoved (s : SState) (wsRoomId : Option ℕ) (pid : ℕ) : SState × List SAct :=
  match wsRoomId with
  | none => (s, [])
  | some rid =>
      match lookupNat rid s.rooms with
      | none => (s, [])
      | some room =>
          if pid ∈ room.players then
            let acts := if room.workerAlive then [SAct.postRemove pid] else []
            (⟨setNat rid (fun r => { r with players := r.players.erase pid }) s.rooms⟩, acts)
          else (s, [])

-- ===============================================================
-- Inbound command boundary: parse guard and per-command room/player
-- guards of server/server.js (claim C9)
-- ===============================================================

/-- The uncaught JavaScript error class relevant here: TypeError from
reading a property of undefined. -/
inductive JsErr
  | typeErr
  deriving DecidableEq

/-- Registry of phase-machine rooms for the boundary handlers. -/
structure SState9 where
  rooms : List (ℕ × RoomP)
  deriving DecidableEq

/-- Handler outcome: a (possibly unchanged) state, or a thrown error. -/
inductive HRes
  | okR (s : SState9)
  | errR (e : JsErr)
  deriving DecidableEq

/-- Parsed inbound commands relevant to the boundary guards. -/
inductive InMsg
  | setReadyMsg (v : Bool)
  | inputMsg
  | configMsg
  | finishMsg (now : ℕ)
  deriving DecidableEq

/-- Translated from the setReady branch: the socket-roomId guard returns
silently, but a room id absent from state.rooms makes room.players throw
a TypeError; a missing player returns silently; otherwise the ready flag
is set. -/
def handleSetReadySrv (s : SState9) (wsRoomId : Option ℕ) (pid : ℕ) (v : Bool) : HRes :=
  match wsRoomId with
  | none => HRes.okR s
  | some rid =>
      match lookupNat rid s.rooms with
      | none => HRes.errR JsErr.typeErr
      | some room =>
          match lookupNat pid room.players with
          | none => HRes.okR s
          | some _ => HRes.okR ⟨setNat rid (fun r => setReadyRoom r pid v) s.rooms⟩

/-- Translated from the input branch: same missing guard on the room
(TypeError on a nonexistent room), silent return on a missing player;
a valid input mutates no orchestrator roster state (it is forwarded to
the worker). -/
def handleInputSrv (s : SState9) (wsRoomId : Option ℕ) (pid : ℕ) : HRes :=
  match wsRoomId with
  | none => HRes.okR s
  | some rid =>
      match lookupNat rid s.rooms with
      | none => HRes.errR JsErr.typeErr
      | some room =>
          match lookupNat pid room.players with
          | none => HRes.okR s
          | some _ => HRes.okR s

/-- Translated from the config branch: it checks the room and returns
silently when it is gone; a valid config is forwarded to the worker
without touching orchestrator state. -/
def handleConfigSrv (s : SState9) (wsRoomId : Option ℕ) (pid : ℕ) : HRes :=
  match wsRoomId with
  | none => HRes.okR s
  | some rid =>
      match lookupNat rid s.rooms with
      | none => HRes.okR s
      | some _ =>
          let _ := pid
          HRes.okR s

/-- Translated from the finish branch: optional chaining makes a missing
room fall through the missing-player guard silently. -/
def handleFinishSrv (s : SState9) (wsRoomId : Option ℕ) (pid : ℕ) (now : ℕ) : HRes :=
  match wsRoomId with
  | none => HRes.okR s
  | some rid =>
      match lookupNat rid s.rooms with
      | none => HRes.okR s
      | some room =>
          match lookupNat pid room.players with
          | none => HRes.okR s
          | some _ => HRes.okR ⟨setNat rid (fun r => finishRoom r pid now) s.rooms⟩

/-- Translated from the ws message handler: a JSON.parse failure is
caught and dropped (modelled as a none parse result); otherwise dispatch
to the per-command branch. -/
def dispatchMessage (s : SState9) (wsRoomId : Option ℕ) (pid : ℕ) (parsed : Option InMsg) : HRes :=
  match parsed with
  | none => HRes.okR s
  | some (InMsg.setReadyMsg v) => handleSetReadySrv s wsRoomId pid v
  | some InMsg.inputMsg => handleInputSrv s wsRoomId pid
  | some InMsg.configMsg => handleConfigSrv s wsRoomId pid
  | some (InMsg.finishMsg now) => handleFinishSrv s wsRoomId pid now

-- ===============================================================
-- Theorems for the terrain field (claims C7, C8)
-- ===============================================================

theorem fbmLoop_eq_sum (noiseFn : Vec3 → ℚ) (p : Vec3) (lac pers : ℚ) :
    ∀ (n : ℕ) (f amp : ℚ),
      fbmLoop noiseFn p lac pers n f amp
        = Finset.sum (Finset.range n) (fun i => noiseFn (scaleV p (f * lac ^ i)) * (amp * pers ^ i)) := by
  intro n
  induction n with
  | zero => intro f amp; simp [fbmLoop]
  | succ n ih =>
      intro f amp
      rw [fbmLoop, ih (f * lac) (amp * pers), Finset.sum_range_succ']
      have h0 : noiseFn (scaleV p (f * lac ^ 0)) * (amp * pers ^ 0) = noiseFn (scaleV p f) * amp := by
        norm_num
      rw [h0]
      have hstep : ∀ i : ℕ,
          noiseFn (scaleV p (f * lac * lac ^ i)) * (amp * pers * pers ^ i)
            = noiseFn (scaleV p (f * lac ^ (i + 1))) * (amp * pers ^ (i + 1)) := by
        intro i
        have h1 : f * lac * lac ^ i = f * lac ^ (i + 1) := by ring
        have h2 : amp * pers * pers ^ i = amp * pers ^ (i + 1) := by ring
        rw [h1, h2]
      rw [Finset.sum_congr rfl (fun i _ => hstep i)]
      ring

theorem fbmCallsLoop_eq (p : Vec3) (lac : ℚ) :
    ∀ (n : ℕ) (f : ℚ),
      fbmCallsLoop p lac n f = (List.range n).map (fun i => scaleV p (f * lac ^ i)) := by
  intro n
  induction n with
  | zero => intro f; simp [fbmCallsLoop]
  | succ n ih =>
      intro f
      rw [fbmCallsLoop, ih (f * lac), List.range_succ_eq_map]
      simp only [List.map_cons, List.map_map, List.cons.injEq]
      refine ⟨by norm_num, ?_⟩
      apply List.map_congr_left
      intro i _
      simp only [Function.comp]
      have h1 : f * lac * lac ^ i = f * lac ^ (i + 1) := by ring
      rw [h1]

/-- Claim C7: fbmStandard accumulates the sum over octaves i of
noiseFn(p * f_i) * amp_i with f_0 = freq, f_(i+1) = f_i * lacunarity,
amp_0 = 0.5, amp_(i+1) = amp_i * persistence, scaling the input point by
the current frequency before each noise call; with a stub noise returning
1 and octaves = 3, freq = 2, lacunarity = 3, persistence = 0.5 on point
(1,2,3), the noise function is called exactly on (2,4,6), (6,12,18),
(18,36,54) and the result is 0.875. -/
theorem claim_c7_fbm_standard :
    (∀ (p : Vec3) (freq lac pers : ℚ) (oct : ℕ) (noiseFn : Vec3 → ℚ),
        fbmStandard p freq lac pers oct noiseFn
          = Finset.sum (Finset.range oct)
              (fun i => noiseFn (scaleV p (freq * lac ^ i)) * (1 / 2 * pers ^ i)))
    ∧ (∀ (p : Vec3) (freq lac : ℚ) (oct : ℕ),
        fbmCalls p freq lac oct = (List.range oct).map (fun i => scaleV p (freq * lac ^ i)))
    ∧ fbmCalls ⟨1, 2, 3⟩ 2 3 3 = [⟨2, 4, 6⟩, ⟨6, 12, 18⟩, ⟨18, 36, 54⟩]
    ∧ fbmStandard ⟨1, 2, 3⟩ 2 3 (1 / 2) 3 (fun _ => 1) = 7 / 8 := by
  refine ⟨fun p freq lac pers oct noiseFn => fbmLoop_eq_sum noiseFn p lac pers oct freq (1 / 2),
    fun p freq lac oct => fbmCallsLoop_eq p lac oct freq, ?_, ?_⟩
  · simp only [fbmCalls, fbmCallsLoop, scaleV, Vec3.mk.injEq]
    norm_num
  · simp only [fbmStandard, fbmLoop]
    norm_num

/-- Claim C8: terrainElevationRidged equals (base + detail * 0.3) raised
(via Math.pow) to the exponentiation parameter, where base is the ridged
fBm at the configured frequency and octaves, and detail is a ridged fBm at
frequency * 2.5 with max(3, floor(octaves / 2)) octaves evaluated at the
position offset by a warp vector of amplitude 0.3 whose three components
are noise samples at the position scaled by 0.5 with offsets +100 and
+200 on two axes; moreover ridged fBm is the ridge-transformed octave
accumulation and the detail octave count is at least 3. -/
theorem claim_c8_terrain_ridged :
    (∀ (pos : Vec3) (params : FBMParams) (noiseFn : Vec3 → ℚ) (powFn : ℚ → ℚ → ℚ),
        terrainElevationRidged pos params noiseFn powFn
          = powFn
              (ridgedFBM pos params.uFrequency params.uLacunarity params.uPersistence
                  params.uOctaves noiseFn
                + ridgedFBM
                    ⟨pos.x + noiseFn ⟨pos.x * (1 / 2), pos.y * (1 / 2), pos.z * (1 / 2)⟩ * (3 / 10),
                     pos.y + noiseFn ⟨pos.x * (1 / 2) + 100, pos.y * (1 / 2), pos.z * (1 / 2)⟩ * (3 / 10),
                     pos.z + noiseFn ⟨pos.x * (1 / 2), pos.y * (1 / 2) + 200, pos.z * (1 / 2)⟩ * (3 / 10)⟩
                    (params.uFrequency * (5 / 2)) params.uLacunarity params.uPersistence
                    (max 3 (params.uOctaves / 2)) noiseFn
                  * (3 / 10))
              params.uExponentiation)
    ∧ (∀ (p : Vec3) (freq lac pers : ℚ) (oct : ℕ) (noiseFn : Vec3 → ℚ),
        ridgedFBM p freq lac pers oct noiseFn
          = Finset.sum (Finset.range oct)
              (fun i => ridge (noiseFn (scaleV p (freq * lac ^ i))) * (1 / 2 * pers ^ i)))
    ∧ (∀ oct : ℕ, 3 ≤ max 3 (oct / 2)) := by
  refine ⟨fun pos params noiseFn powFn => rfl, ?_, fun oct => le_max_left 3 (oct / 2)⟩
  have key : ∀ (noiseFn : Vec3 → ℚ) (p : Vec3) (lac pers : ℚ) (n : ℕ) (f amp : ℚ),
      ridgedLoop noiseFn p lac pers n f amp
        = Finset.sum (Finset.range n)
            (fun i => ridge (noiseFn (scaleV p (f * lac ^ i))) * (amp * pers ^ i)) := by
    intro noiseFn p lac pers n
    induction n with
    | zero => intro f amp; simp [ridgedLoop]
    | succ n ih =>
        intro f amp
        rw [ridgedLoop, ih (f * lac) (amp * pers), Finset.sum_range_succ']
        have h0 : ridge (noiseFn (scaleV p (f * lac ^ 0))) * (amp * pers ^ 0)
            = ridge (noiseFn (scaleV p f)) * amp := by norm_num
        rw [h0]
        have hstep : ∀ i : ℕ,
            ridge (noiseFn (scaleV p (f * lac * lac ^ i))) * (amp * pers * pers ^ i)
              = ridge (noiseFn (scaleV p (f * lac ^ (i + 1)))) * (amp * pers ^ (i + 1)) := by
          intro i
          have h1 : f * lac * lac ^ i = f * lac ^ (i + 1) := by ring
          have h2 : amp * pers * pers ^ i = amp * pers ^ (i + 1) := by ring
          rw [h1, h2]
        rw [Finset.sum_congr rfl (fun i _ => hstep i)]
        ring
  intro p freq lac pers oct noiseFn
  exact key noiseFn p lac pers oct freq (1 / 2)

-- ===============================================================
-- Theorems for the physics worker (claims C5, C6)
-- ===============================================================

theorem foldl_min_map_add (c : ℚ) :
    ∀ (l : List ℚ) (a : ℚ), (l.map (fun x => x + c)).foldl min (a + c) = l.foldl min a + c := by
  intro l
  induction l with
  | nil => intro a; simp
  | cons b t ih =>
      intro a
      simp only [List.map_cons, List.foldl_cons]
      rw [min_add_add_right]
      exact ih (min a b)

theorem obbMinDistance_shift (sdf : Vec3 → ℚ) (normal : Vec3) (k : ℚ)
    (hsdf : ∀ p, sdf p = dotV p normal + k) (rot : Vec3 → Vec3) (center halfExtents D : Vec3) :
    obbMinDistance sdf rot (addV center D) halfExtents
      = obbMinDistance sdf rot center halfExtents + dotV D normal := by
  have hc : ∀ i : ℕ, sdf (cornerPoint rot (addV center D) halfExtents i)
      = sdf (cornerPoint rot center halfExtents i) + dotV D normal := by
    intro i
    rw [hsdf, hsdf]
    simp only [cornerPoint, addV, dotV]
    ring
  unfold obbMinDistance
  rw [hc 0]
  rw [List.map_congr_left (fun i _ => hc i)]
  have hmm : (List.range 8).map (fun i => sdf (cornerPoint rot center halfExtents i) + dotV D normal)
      = ((List.range 8).map (fun i => sdf (cornerPoint rot center halfExtents i))).map
          (fun x => x + dotV D normal) := by
    rw [List.map_map]
    rfl
  rw [hmm, foldl_min_map_add]

/-- Claim C5: in the collision branch (minimum OBB corner signed distance
below the player radius 0.5) the position is pushed out along the reported
contact normal by the penetration depth, the new velocity is the
tangential component scaled by slideFactor minus the normal component
scaled by restitution, the angular velocity is scaled by 0.1, and for a
static terrain sample measured along the reported unit contact normal (an
affine signed-distance field with that gradient) the minimum OBB corner
distance after the single resolution step is back at the player radius,
hence no residual penetration. -/
theorem claim_c5_collision_step (restitution slideFactor k : ℚ)
    (normal velocity angularVelocity center halfExtents : Vec3)
    (rot : Vec3 → Vec3) (sdf : Vec3 → ℚ)
    (hsdf : ∀ p, sdf p = dotV p normal + k)
    (hunit : dotV normal normal = 1)
    (hpen : obbMinDistance sdf rot center halfExtents < playerRadius) :
    resolveCollision restitution slideFactor center velocity angularVelocity
        (obbMinDistance sdf rot center halfExtents) normal
      = (addV center (scaleV normal (playerRadius - obbMinDistance sdf rot center halfExtents)),
          subV (scaleV (subV velocity (scaleV normal (dotV velocity normal))) slideFactor)
            (scaleV (scaleV normal (dotV velocity normal)) restitution),
          scaleV angularVelocity (1 / 10))
      ∧ playerRadius ≤ obbMinDistance sdf rot
          (addV center (scaleV normal (playerRadius - obbMinDistance sdf rot center halfExtents)))
          halfExtents := by
  constructor
  · simp only [resolveCollision, if_pos hpen, Prod.mk.injEq, addV, subV, scaleV, dotV,
      Vec3.mk.injEq, true_and, and_true]
    refine ⟨by ring, by ring, by ring⟩
  · rw [obbMinDistance_shift sdf normal k hsdf]
    have hdot : dotV (scaleV normal (playerRadius - obbMinDistance sdf rot center halfExtents)) normal
        = (playerRadius - obbMinDistance sdf rot center halfExtents) * dotV normal normal := by
      simp only [dotV, scaleV]
      ring
    rw [hdot, hunit, mul_one]
    linarith

/-- Witness for claim C5 at the source halfExtents (1, 0.5, 2) with unit
contact normal (0, 1, 0), identity orientation and the affine terrain
sample sdf(p) = p dot normal. -/
theorem claim_c5_collision_step_witness :
    (dotV ⟨0, 1, 0⟩ ⟨0, 1, 0⟩ = 1)
    ∧ (obbMinDistance (fun q => dotV q ⟨0, 1, 0⟩ + 0) id ⟨0, 0, 0⟩ ⟨1, 1 / 2, 2⟩ < playerRadius)
    ∧ (resolveCollision (1 / 2) (9 / 10) ⟨0, 0, 0⟩ ⟨3, -2, 1⟩ ⟨1, 2, 3⟩
          (obbMinDistance (fun q => dotV q ⟨0, 1, 0⟩ + 0) id ⟨0, 0, 0⟩ ⟨1, 1 / 2, 2⟩) ⟨0, 1, 0⟩
        = (addV ⟨0, 0, 0⟩ (scaleV ⟨0, 1, 0⟩ (playerRadius
              - obbMinDistance (fun q => dotV q ⟨0, 1, 0⟩ + 0) id ⟨0, 0, 0⟩ ⟨1, 1 / 2, 2⟩)),
            subV (scaleV (subV ⟨3, -2, 1⟩ (scaleV ⟨0, 1, 0⟩ (dotV ⟨3, -2, 1⟩ ⟨0, 1, 0⟩))) (9 / 10))
              (scaleV (scaleV ⟨0, 1, 0⟩ (dotV ⟨3, -2, 1⟩ ⟨0, 1, 0⟩)) (1 / 2)),
            scaleV ⟨1, 2, 3⟩ (1 / 10))
        ∧ playerRadius ≤ obbMinDistance (fun q => dotV q ⟨0, 1, 0⟩ + 0) id
            (addV ⟨0, 0, 0⟩ (scaleV ⟨0, 1, 0⟩ (playerRadius
              - obbMinDistance (fun q => dotV q ⟨0, 1, 0⟩ + 0) id ⟨0, 0, 0⟩ ⟨1, 1 / 2, 2⟩)))
            ⟨1, 1 / 2, 2⟩) := by
  have hpen : obbMinDistance (fun q => dotV q ⟨0, 1, 0⟩ + 0) id ⟨0, 0, 0⟩ ⟨1, 1 / 2, 2⟩
      < playerRadius := by
    simp [obbMinDistance, cornerPoint, cornerSign, addV, dotV, playerRadius, List.range_succ,
      Nat.testBit]
  exact ⟨by norm_num [dotV], hpen,
    claim_c5_collision_step (1 / 2) (9 / 10) 0 ⟨0, 1, 0⟩ ⟨3, -2, 1⟩ ⟨1, 2, 3⟩ ⟨0, 0, 0⟩
      ⟨1, 1 / 2, 2⟩ id (fun q => dotV q ⟨0, 1, 0⟩ + 0) (fun p => rfl) (by norm_num [dotV]) hpen⟩

/-- Claim C6: the signed nose-forward speed (the dot product of the
velocity with the post-rotation forward axis) moves toward +maxSpeed at
rate acceleration * throttle when throttle > 0, toward -0.5 * maxSpeed at
rate acceleration * throttle when throttle < 0, decays geometrically by
the fixed per-tick factor 0.99 (not scaled by the time step) when
throttle = 0, and the resulting scalar speed is clamped to plus or minus
4 * maxSpeed. -/
theorem claim_c6_speed_update (velocity forward : Vec3) (throttle accel currentPlayerSpeed : ℚ)
    (_hlo : -1 ≤ throttle) (_hhi : throttle ≤ 1) :
    (0 < throttle →
        updateSpeed (dotV velocity forward) throttle accel currentPlayerSpeed
          = clampQ (min (dotV velocity forward + accel * throttle * (1 / 60))
                (maxSpeedOf currentPlayerSpeed))
              (-(maxSpeedOf currentPlayerSpeed * 4)) (maxSpeedOf currentPlayerSpeed * 4))
    ∧ (throttle < 0 →
        updateSpeed (dotV velocity forward) throttle accel currentPlayerSpeed
          = clampQ (max (dotV velocity forward + accel * throttle * (1 / 60))
                (-maxSpeedOf currentPlayerSpeed * (1 / 2)))
              (-(maxSpeedOf currentPlayerSpeed * 4)) (maxSpeedOf currentPlayerSpeed * 4))
    ∧ (throttle = 0 →
        updateSpeed (dotV velocity forward) throttle accel currentPlayerSpeed
          = clampQ (dotV velocity forward * (99 / 100))
              (-(maxSpeedOf currentPlayerSpeed * 4)) (maxSpeedOf currentPlayerSpeed * 4))
    ∧ |updateSpeed (dotV velocity forward) throttle accel currentPlayerSpeed|
        ≤ 4 * maxSpeedOf currentPlayerSpeed := by
  have hm : (0 : ℚ) < maxSpeedOf currentPlayerSpeed :=
    lt_of_lt_of_le (by norm_num) (le_max_left _ _)
  refine ⟨?_, ?_, ?_, ?_⟩
  · intro h
    simp only [updateSpeed, fixedStep, if_pos h]
  · intro h
    simp only [updateSpeed, fixedStep, if_neg (not_lt.mpr (le_of_lt h)), if_pos h]
  · intro h
    simp only [updateSpeed, fixedStep, h, if_neg (lt_irrefl (0 : ℚ))]
  · have habs : ∀ s : ℚ,
        |clampQ s (-(maxSpeedOf currentPlayerSpeed * 4)) (maxSpeedOf currentPlayerSpeed * 4)|
          ≤ 4 * maxSpeedOf currentPlayerSpeed := by
      intro s
      rw [abs_le]
      constructor
      · have := le_max_left (-(maxSpeedOf currentPlayerSpeed * 4))
          (min (maxSpeedOf currentPlayerSpeed * 4) s)
        simp only [clampQ]
        linarith
      · simp only [clampQ]
        apply max_le
        · linarith
        · have := min_le_left (maxSpeedOf currentPlayerSpeed * 4) s
          linarith
    exact habs _

/-- Witness for claim C6 at throttle 0.5 with velocity (3,0,0) along
forward (1,0,0), acceleration 20 and configured player speed 50. -/
theorem claim_c6_speed_update_witness :
    (-1 ≤ (1 / 2 : ℚ)) ∧ ((1 / 2 : ℚ) ≤ 1)
    ∧ ((0 < (1 / 2 : ℚ) →
        updateSpeed (dotV ⟨3, 0, 0⟩ ⟨1, 0, 0⟩) (1 / 2) 20 50
          = clampQ (min (dotV ⟨3, 0, 0⟩ ⟨1, 0, 0⟩ + 20 * (1 / 2) * (1 / 60)) (maxSpeedOf 50))
              (-(maxSpeedOf 50 * 4)) (maxSpeedOf 50 * 4))
      ∧ ((1 / 2 : ℚ) < 0 →
        updateSpeed (dotV ⟨3, 0, 0⟩ ⟨1, 0, 0⟩) (1 / 2) 20 50
          = clampQ (max (dotV ⟨3, 0, 0⟩ ⟨1, 0, 0⟩ + 20 * (1 / 2) * (1 / 60))
                (-maxSpeedOf 50 * (1 / 2)))
              (-(maxSpeedOf 50 * 4)) (maxSpeedOf 50 * 4))
      ∧ ((1 / 2 : ℚ) = 0 →
        updateSpeed (dotV ⟨3, 0, 0⟩ ⟨1, 0, 0⟩) (1 / 2) 20 50
          = clampQ (dotV ⟨3, 0, 0⟩ ⟨1, 0, 0⟩ * (99 / 100))
              (-(maxSpeedOf 50 * 4)) (maxSpeedOf 50 * 4))
      ∧ |updateSpeed (dotV ⟨3, 0, 0⟩ ⟨1, 0, 0⟩) (1 / 2) 20 50| ≤ 4 * maxSpeedOf 50) :=
  ⟨by norm_num, by norm_num,
    claim_c6_speed_update ⟨3, 0, 0⟩ ⟨1, 0, 0⟩ (1 / 2) 20 50 (by norm_num) (by norm_num)⟩

-- ===============================================================
-- Theorems for the start-pose computation (claim C10)
-- ===============================================================

theorem lookRotation_of_non_finite (sqrtFn : ℚ → ℚ) :
    lookRotation sqrtFn ⟨none, none, none⟩ ⟨some 0, some 1, some 0⟩
      = ⟨none, none, none, none⟩ := rfl

/-- Claim C10: for every curve with at least two points, at distance
exactly 1 (the fraction the start-pose precomputation uses for the last
curve point) the selected segment endpoints coincide, the degenerate
tangent normalization divides zero by zero, every component of the
returned quaternion is non-finite, and the returned position still equals
the last curve point; the last precomputed start-pose distance fraction is
exactly 1. -/
theorem claim_c10_start_pose_at_one (sqrtFn : ℚ → ℚ) (points : List Vec3)
    (hlen : 2 ≤ points.length) :
    (selectedSegment points 1).1 = (selectedSegment points 1).2
    ∧ (getStartPoseFromCurve sqrtFn points 1).1 = points.getD (points.length - 1) ⟨0, 0, 0⟩
    ∧ (getStartPoseFromCurve sqrtFn points 1).2 = ⟨none, none, none, none⟩
    ∧ (startPoseDistances points.length).getD (points.length - 1) 0 = 1 := by
  have h1 : min (max (1 : ℚ) 0) 1 = 1 := by norm_num
  have hcast : ((points.length : ℤ) : ℚ) - 1 = (((points.length : ℤ) - 1 : ℤ) : ℚ) := by
    push_cast
    ring
  have hfloor : ⌊min (max (1 : ℚ) 0) 1 * (((points.length : ℤ) : ℚ) - 1)⌋
      = (points.length : ℤ) - 1 := by
    rw [h1, one_mul, hcast, Int.floor_intCast]
  have hmin : min ((points.length : ℤ) - 1 + 1) ((points.length : ℤ) - 1)
      = (points.length : ℤ) - 1 := by omega
  have htoNat : ((points.length : ℤ) - 1).toNat = points.length - 1 := by omega
  have halph : min (max (1 : ℚ) 0) 1 * (((points.length : ℤ) : ℚ) - 1)
      - (((points.length : ℤ) - 1 : ℤ) : ℚ) = 0 := by
    rw [h1, one_mul]
    push_cast
    ring
  refine ⟨?_, ?_, ?_, ?_⟩
  · simp only [selectedSegment, hfloor, hmin]
  · simp only [getStartPoseFromCurve, hfloor, hmin, htoNat, halph, mul_zero, add_zero]
  · simp only [getStartPoseFromCurve, hfloor, hmin, htoNat, sub_self]
    have hz : rdiv (some (0 : ℚ)) (rhypot sqrtFn (some 0) (some 0) (some 0)) = none := by
      norm_num [rdiv, rhypot, rsqrt, radd, rmul]
    rw [hz, lookRotation_of_non_finite]
  · have hmax : max 1 (points.length - 1) = points.length - 1 := by omega
    rw [startPoseDistances, List.getD_eq_getElem?_getD]
    simp only [List.getElem?_map, List.getElem?_range (by omega : points.length - 1 < points.length),
      Option.map_some', Option.getD_some]
    rw [hmax, div_self]
    exact ne_of_gt (by exact_mod_cast Nat.pos_of_ne_zero (by omega))

/-- Witness for claim C10 on the two-point straight-line curve
(0,0,0) - (5,0,0), with the identity standing in for Math.sqrt. -/
theorem claim_c10_start_pose_at_one_witness :
    2 ≤ ([⟨0, 0, 0⟩, ⟨5, 0, 0⟩] : List Vec3).length
    ∧ ((selectedSegment [⟨0, 0, 0⟩, ⟨5, 0, 0⟩] 1).1 = (selectedSegment [⟨0, 0, 0⟩, ⟨5, 0, 0⟩] 1).2
      ∧ (getStartPoseFromCurve (fun q => q) [⟨0, 0, 0⟩, ⟨5, 0, 0⟩] 1).1
          = ([⟨0, 0, 0⟩, ⟨5, 0, 0⟩] : List Vec3).getD (([⟨0, 0, 0⟩, ⟨5, 0, 0⟩] : List Vec3).length - 1) ⟨0, 0, 0⟩
      ∧ (getStartPoseFromCurve (fun q => q) [⟨0, 0, 0⟩, ⟨5, 0, 0⟩] 1).2 = ⟨none, none, none, none⟩
      ∧ (startPoseDistances ([⟨0, 0, 0⟩, ⟨5, 0, 0⟩] : List Vec3).length).getD
          (([⟨0, 0, 0⟩, ⟨5, 0, 0⟩] : List Vec3).length - 1) 0 = 1) :=
  ⟨by norm_num,
    claim_c10_start_pose_at_one (fun q => q) [⟨0, 0, 0⟩, ⟨5, 0, 0⟩] (by norm_num)⟩

-- ===============================================================
-- Theorems for room teardown (claim C1)
-- ===============================================================

/-- Claim C1 (code bug): the claim says a room, its timers and its
physics worker are torn down exactly when the last player leaves.  The
close handler instead runs cleanupRoom on every socket close: with roster
[1, 2], the close of the socket of player 2 deletes the room and
terminates the worker although player 1 remains.  Conversely, when the
last player first sends removed (emptying the roster) and then closes,
the empty-roster branch deletes the room before cleanupRoom can see it,
so the worker is never stopped nor terminated. -/
theorem claim_c1_room_destroyed_on_any_close :
    (((onSocketClose ⟨[(7, ⟨[1, 2], true, false, true⟩)]⟩ (some 7) 2).1).rooms.length = 0
      ∧ SAct.terminateW ∈ (onSocketClose ⟨[(7, ⟨[1, 2], true, false, true⟩)]⟩ (some 7) 2).2
      ∧ SAct.postStop ∈ (onSocketClose ⟨[(7, ⟨[1, 2], true, false, true⟩)]⟩ (some 7) 2).2)
    ∧ (let afterRemoved := handleRemoved ⟨[(7, ⟨[1], true, false, true⟩)]⟩ (some 7) 1
       let afterClose := onSocketClose afterRemoved.1 (some 7) 1
       (afterClose.1.rooms.length = 0
        ∧ SAct.postStop ∉ afterRemoved.2 ++ afterClose.2
        ∧ SAct.terminateW ∉ afterRemoved.2 ++ afterClose.2)) := by
  decide

-- ===============================================================
-- Theorems for the phase machine (claim C2)
-- ===============================================================

/-- Counterexample to claim C2 as stated: in a lobby room with two
players, after both have set ready every present player is ready, yet the
phase is still lobby, not pregame (the all-ready trigger is commented out
in server/server.js). -/
theorem claim_c2_all_ready_keeps_lobby :
    ((setReadyRoom (setReadyRoom lobbyRoomTwo 1 true) 2 true).players.all
        (fun qe => qe.2.ready)) = true
    ∧ (setReadyRoom (setReadyRoom lobbyRoomTwo 1 true) 2 true).phase = Phase.lobby
    ∧ Phase.lobby ≠ Phase.pregame := by
  decide

/-- Claim C2 as amended: setting ready never changes the phase; the phase
becomes pregame only through the forced start in lobby; when the pregame
countdown reaches 0 the phase becomes racecountdown with a 5 second race
countdown armed; when that countdown reaches 0 the phase becomes racing
with the start timestamp recorded; and a finish after which every present
player has a finish time moves the phase to finished. -/
theorem claim_c2_phase_chain_amended (room : RoomP) (pid : ℕ) (v : Bool) (now : ℕ) :
    ((setReadyRoom room pid v).phase = room.phase)
    ∧ (room.phase = Phase.lobby → (forceStartRoom true room).phase = Phase.pregame)
    ∧ (room.pregameT = some 1 →
        (pregameTickRoom room).phase = Phase.racecountdown
          ∧ (pregameTickRoom room).raceT = some 5)
    ∧ (room.raceT = some 1 →
        (raceTickRoom room now).phase = Phase.racing
          ∧ (raceTickRoom room now).raceStartAt = some now)
    ∧ ((lookupNat pid room.players).isSome = true →
        ((finishRoom room pid now).players.all (fun qe => qe.2.finishedAt.isSome)) = true →
        (finishRoom room pid now).phase = Phase.finished) := by
  refine ⟨?_, ?_, ?_, ?_, ?_⟩
  · cases h : lookupNat pid room.players <;> simp [setReadyRoom, h]
  · intro h
    simp [forceStartRoom, startPregameRoom, h]
  · intro h
    simp [pregameTickRoom, h, startRaceCountdownRoom, assignStartPositionsRoom]
  · intro h
    simp [raceTickRoom, h, startRaceRoom]
  · intro hpid hall
    cases h : lookupNat pid room.players with
    | none => rw [h] at hpid; simp at hpid
    | some e =>
        by_cases hc : ((setNat pid
            (fun e => { e with finishedAt := some now, score := e.score + 1 })
            room.players).all (fun qe => qe.2.finishedAt.isSome)) = true
        · simp [finishRoom, h, hc, endRaceRoom]
        · simp [finishRoom, h, hc] at hall

/-- Witness for the amended claim C2, discharging every hypothesis at
concrete rooms: a forced start from the lobby, a pregame countdown at its
last second, a race countdown at its last second, and the finish of the
only unfinished player. -/
theorem claim_c2_phase_chain_amended_witness :
    (forceStartRoom true lobbyRoomTwo).phase = Phase.pregame
    ∧ ((pregameTickRoom pregameRoomOne).phase = Phase.racecountdown
        ∧ (pregameTickRoom pregameRoomOne).raceT = some 5)
    ∧ ((raceTickRoom countdownRoomOne 42).phase = Phase.racing
        ∧ (raceTickRoom countdownRoomOne 42).raceStartAt = some 42)
    ∧ (finishRoom racingRoomLast 2 99).phase = Phase.finished :=
  ⟨(claim_c2_phase_chain_amended lobbyRoomTwo 1 true 0).2.1 rfl,
    (claim_c2_phase_chain_amended pregameRoomOne 1 true 0).2.2.1 rfl,
    (claim_c2_phase_chain_amended countdownRoomOne 1 true 42).2.2.2.1 rfl,
    (claim_c2_phase_chain_amended racingRoomLast 2 true 99).2.2.2.2 (by decide) (by decide)⟩

-- ===============================================================
-- Theorems for engine teardown (claim C3)
-- ===============================================================

/-- Counterexample to claim C3 as stated: after init, start and a
completed stop command, a firing of the fixed-update interval still emits
a stateUpdate snapshot, although the claim requires that no further
snapshots be produced after stop. -/
theorem claim_c3_snapshot_after_stop :
    emitsSnapshotOnTimer
        (wHandle (wHandle (wHandle freshEngine WCmd.initCmd) WCmd.startCmd) WCmd.stopCmd)
      = true := by
  decide

/-- Claim C3 as amended: stop is idempotent and no tick message is
emitted after it completes; the fixed-update stateUpdate loop however is
untouched by stop and keeps emitting until the worker is terminated,
after which neither ticks nor snapshots are produced. -/
theorem claim_c3_stop_behavior_amended (e : EngineSt) :
    wStop (wStop e) = wStop e
    ∧ emitsTickOnTimer (wStop e) = false
    ∧ emitsSnapshotOnTimer (wStop e) = emitsSnapshotOnTimer e
    ∧ emitsTickOnTimer (wTerminate e) = false
    ∧ emitsSnapshotOnTimer (wTerminate e) = false := by
  cases e
  simp [wStop, wTerminate, emitsTickOnTimer, emitsSnapshotOnTimer]

-- ===============================================================
-- Theorems for pre-ready buffering (claim C4)
-- ===============================================================

/-- Counterexample to claim C4 as stated: creating a room for player 1
posts addPlayer directly to the worker while workerReady is false, and
the ready callback posts addPlayer for the same player again, so an
addPlayer reaches the worker before the handshake and the command is
delivered twice. -/
theorem claim_c4_addplayer_pre_ready_and_twice :
    (onWorkerReady (roomCreationSends newChan (some 1)) (some 1)).posted
      = [(WMsg.addPlayer 1, false), (WMsg.initMsg, true), (WMsg.startMsg, true),
          (WMsg.addPlayer 1, true)]
    ∧ (WMsg.addPlayer 1, false) ∈ (onWorkerReady (roomCreationSends newChan (some 1)) (some 1)).posted
    ∧ ((onWorkerReady (roomCreationSends newChan (some 1)) (some 1)).posted.map Prod.fst).count
        (WMsg.addPlayer 1) = 2 := by
  decide

theorem sendToWorker_foldl_buffers :
    ∀ (ms : List WMsg) (c : Chan), c.workerReady = false →
      ms.foldl sendToWorker c = { c with pending := c.pending ++ ms } := by
  intro ms
  induction ms with
  | nil => intro c _; simp
  | cons m rest ih =>
      intro c h
      simp only [List.foldl_cons, sendToWorker, h, Bool.false_eq_true, if_false]
      rw [ih _ rfl]
      simp

theorem postMsg_foldl_flushes :
    ∀ (ms : List WMsg) (c : Chan), c.workerReady = true →
      ms.foldl postMsg c = { c with posted := c.posted ++ ms.map (fun m => (m, true)) } := by
  intro ms
  induction ms with
  | nil => intro c _; simp
  | cons m rest ih =>
      intro c h
      simp only [List.foldl_cons, postMsg, h]
      rw [ih _ rfl]
      simp

/-- Claim C4 as amended: every command issued through sendToWorker while
the worker is not ready is buffered in issue order and physically posted
exactly once, in that order, when the ready signal arrives (followed by
init and start); but the room-creating player gets an addPlayer posted
directly before the handshake and a second one after it, so that command
reaches the worker twice. -/
theorem claim_c4_buffering_amended (ms : List WMsg) (pid : ℕ) :
    ((ms.foldl sendToWorker newChan).posted = [] ∧ (ms.foldl sendToWorker newChan).pending = ms)
    ∧ (onWorkerReady (ms.foldl sendToWorker newChan) none).posted
        = ms.map (fun m => (m, true)) ++ [(WMsg.initMsg, true), (WMsg.startMsg, true)]
    ∧ (onWorkerReady (ms.foldl sendToWorker newChan) none).pending = []
    ∧ (onWorkerReady (roomCreationSends newChan (some pid)) (some pid)).posted
        = [(WMsg.addPlayer pid, false), (WMsg.initMsg, true), (WMsg.startMsg, true),
            (WMsg.addPlayer pid, true)] := by
  have hbuf := sendToWorker_foldl_buffers ms newChan rfl
  refine ⟨⟨by rw [hbuf]; rfl, by rw [hbuf]; rfl⟩, ?_, ?_, ?_⟩
  · rw [hbuf]
    simp only [onWorkerReady]
    rw [postMsg_foldl_flushes _ _ rfl]
    simp [sendToWorker, postMsg, newChan]
  · rw [hbuf]
    simp only [onWorkerReady]
    rw [postMsg_foldl_flushes _ _ rfl]
    simp [sendToWorker, postMsg, newChan]
  · rfl

-- ===============================================================
-- Theorems for the inbound command boundary (claim C9)
-- ===============================================================

/-- Claim C9 (code bug): unparseable messages, commands for a missing
player, and config or finish for a nonexistent room are dropped silently;
but setReady and input sent while the socket still references a destroyed
room throw a TypeError (reading players of undefined) instead of being
dropped, because those two branches miss the room guard their config and
finish siblings have. -/
theorem claim_c9_destroyed_room_throws :
    dispatchMessage ⟨[]⟩ (some 7) 1 (some (InMsg.setReadyMsg true)) = HRes.errR JsErr.typeErr
    ∧ dispatchMessage ⟨[]⟩ (some 7) 1 (some InMsg.inputMsg) = HRes.errR JsErr.typeErr
    ∧ dispatchMessage ⟨[]⟩ (some 7) 1 none = HRes.okR ⟨[]⟩
    ∧ dispatchMessage ⟨[]⟩ (some 7) 1 (some InMsg.configMsg) = HRes.okR ⟨[]⟩
    ∧ dispatchMessage ⟨[]⟩ (some 7) 1 (some (InMsg.finishMsg 5)) = HRes.okR ⟨[]⟩
    ∧ dispatchMessage ⟨[(7, lobbyRoomTwo)]⟩ (some 7) 99 (some (InMsg.setReadyMsg true))
        = HRes.okR ⟨[(7, lobbyRoomTwo)]⟩
    ∧ dispatchMessage ⟨[(7, lobbyRoomTwo)]⟩ none 1 (some (InMsg.setReadyMsg true))
        = HRes.okR ⟨[(7, lobbyRoomTwo)]⟩ := by
  decide

end NebulaRace
